import Mathlib

/-!
Verification of the goopho concurrent download pipeline.

This file gives a shallow embedding of the download and accounting core of
the repository — `src/download.rs` (the schedulers `photos_to_disk` and
`photos_to_disk_unordered` and the per-item state machine
`download_and_write`), `src/acc.rs` (the `Event` type and the `track_events`
sink), and `src/hub.rs` (the `MediaAttr` request type) — and proves the
spec's claims about it.

Modelling conventions:
* The transport is a script: each recursion level of `download_and_write`
  consumes one `Attempt`, holding the number of connect timeouts observed
  before a response arrives, whether the `File::create` call fails at that
  level, and the response itself (status, optional location header, and the
  body as a list of chunk/timeout observations).
* Machine integers are `Nat` with an explicit modulus where the source's
  bit width can overflow: the `u64` backoff delay (`% 2 ^ 64`) and the `u8`
  stall counter (`% 256`).  The `i32` sink counters are modelled as `Int`;
  no claim concerns their width.
* Channel sends, URI parsing, response-chunk errors and task panics
  (`JoinError`) are not failure-injected: no claim depends on them.
-/

namespace Goopho

/-- `const IN_PROGRESS_SUFFIX: &str = ".chunks"` from `src/download.rs`. -/
def IN_PROGRESS_SUFFIX : String := ".chunks"

/-- `const TIMEOUT_MS: u64 = 3000` from `src/download.rs` (connect timeout). -/
def TIMEOUT_MS : Nat := 3000

/-- The `MediaAttr` request type from `src/hub.rs`: an image-or-motion-photo
entry carries a base URL, a filename, optional width/height hints and an
optional creation time (modelled opaquely as a string); a video entry has no
size hints. -/
inductive MediaAttr
  | ImageOrMotionPhotoBaseUrl (url name : String)
      (width height : Option Int) (ctime : Option String)
  | VideoBaseUrl (url name : String) (ctime : Option String)
deriving DecidableEq

/-- Filename component of a request (the second field of either variant). -/
def attrName : MediaAttr → String
  | .ImageOrMotionPhotoBaseUrl _ n _ _ _ => n
  | .VideoBaseUrl _ n _ => n

/-- Creation-time component of a request. -/
def attrCtime : MediaAttr → Option String
  | .ImageOrMotionPhotoBaseUrl _ _ _ _ t => t
  | .VideoBaseUrl _ _ t => t

/-- Rendering of the optional width/height used by the unordered scheduler's
format string.  The source interpolates the `Option<i64>` fields directly
into `format!("=w{width}-h{height}")`; we render `some n` as the numeral and
`none` literally. -/
def optDisplay : Option Int → String
  | some n => toString n
  | none => "None"

/-- Locator resolution of `photos_to_disk` (`src/download.rs` lines 39-45):
the size-suffix line is commented out in the source and an image URL gets
the fixed suffix `=d`; a video URL gets `=dv`. -/
def resolveLocator : MediaAttr → String
  | .ImageOrMotionPhotoBaseUrl url _ _ _ _ => url ++ "=d"
  | .VideoBaseUrl url _ _ => url ++ "=dv"

/-- Locator resolution of `photos_to_disk_unordered` (`src/download.rs`
lines 88-94): an image URL gets `=w{width}-h{height}` built from the size
hints; a video URL gets `=dv`. -/
def resolveLocatorUnordered : MediaAttr → String
  | .ImageOrMotionPhotoBaseUrl url _ w h _ =>
      url ++ "=w" ++ optDisplay w ++ "-h" ++ optDisplay h
  | .VideoBaseUrl url _ _ => url ++ "=dv"

/-- Lifecycle events.  The first six constructors are the `Event` enum of
`src/acc.rs`.  `FailedHttp` is the variant `src/download.rs` line 225
constructs for a non-200/302 status; the enum in `src/acc.rs` does NOT
declare it (see claim C5). -/
inductive Event
  | New
  | Retrying (subject : String) (count : Nat)
  | RetryAfter (subject : String) (delayMs : Nat)
  | Failed (subject : String)
  | Completed
  | Summarize
  | FailedHttp (subject : String) (status : String)
deriving DecidableEq

/-- One observation while streaming the response body: either a data chunk
arrives within the 5000 ms chunk timeout, or the read times out. -/
inductive BodyItem
  | chunk (data : List Nat)
  | timeout
deriving DecidableEq

/-- A GET response: HTTP status, optional `location` header, and the body
stream.  End of the list models a clean end of body (`Ok(None)`). -/
structure Response where
  status : Nat
  location : Option String
  body : List BodyItem
deriving DecidableEq

/-- The transport/filesystem script for one level of `download_and_write`:
how many connect attempts time out before `response` arrives, and whether
the `File::create` of the `.chunks` file fails at this level. -/
structure Attempt where
  connectTimeouts : Nat
  createFails : Bool
  response : Response
deriving DecidableEq

/-- The local filesystem as an association list from path to contents. -/
abbrev FS := List (String × List Nat)

/-- `fs::File::create`: truncating create of `p`. -/
def fsCreate (fs : FS) (p : String) : FS :=
  (p, []) :: fs.filter (fun e => !(e.1 == p))

/-- Buffered writes flushed to `p`: append `d` to the contents of `p`. -/
def fsAppend (fs : FS) (p : String) (d : List Nat) : FS :=
  fs.map (fun e => if e.1 == p then (e.1, e.2 ++ d) else e)

/-- `fs::rename src dst`. -/
def fsRename (fs : FS) (src dst : String) : FS :=
  match fs.find? (fun e => e.1 == src) with
  | none => fs
  | some e =>
      (dst, e.2) :: (fs.filter (fun x => !(x.1 == src) && !(x.1 == dst)))

/-- Whether a file exists at path `p`. -/
def fsHas (fs : FS) (p : String) : Bool :=
  fs.any (fun e => e.1 == p)

/-- Delay carried by the `n`-th `RetryAfter` event of a connect phase that
starts from `seed`: the source doubles the `u64` `pause_ms` after each
timeout (`pause_ms *= 2`), so the value wraps modulo `2 ^ 64`. -/
def retryDelay (seed n : Nat) : Nat := seed * 2 ^ n % 2 ^ 64

/-- The `RetryAfter` events emitted by a connect phase that observes `k`
timeouts before a response arrives (`src/download.rs` lines 138-156): the
current `pause_ms` is sent before each sleep-and-double. -/
def connectRetryEvents (url : String) (seed k : Nat) : List Event :=
  (List.range k).map (fun i => Event.RetryAfter url (retryDelay seed i))

/-- Result of the chunk-streaming loop (`src/download.rs` lines 163-194):
events sent, bytes written to the `.chunks` file, the `completed` flag, and
the final value of the `u8` `timeouts` counter. -/
structure StreamResult where
  events : List Event
  bytes : List Nat
  completed : Bool
  timeouts : Nat
deriving DecidableEq

/-- The chunk-streaming loop of the 200 branch.  Each chunk is written; each
timeout increments the `u8` stall counter (wrapping modulo 256 as the
machine type would); when the counter hits a multiple of 60 a `Failed` event
is sent and the loop breaks with `completed = false`; at other multiples of
20 a `Retrying` warning is sent and streaming continues; a clean end of the
stream sets `completed = true`. -/
def streamLoop (cp : String) : List BodyItem → Nat → StreamResult
  | [], t => ⟨[], [], true, t⟩
  | .chunk d :: rest, t =>
      let r := streamLoop cp rest t
      ⟨r.events, d ++ r.bytes, r.completed, r.timeouts⟩
  | .timeout :: rest, t =>
      let t1 := (t + 1) % 256
      if t1 % 60 = 0 then ⟨[Event.Failed cp], [], false, t1⟩
      else if t1 % 20 = 0 then
        let r := streamLoop cp rest t1
        ⟨Event.Retrying cp t1 :: r.events, r.bytes, r.completed, r.timeouts⟩
      else streamLoop cp rest t1

/-- Specification companion of `streamLoop`: the successive values the stall
counter takes (each value recorded just after its increment), following
exactly the control flow of `streamLoop`. -/
def stallTrace : List BodyItem → Nat → List Nat
  | [], _ => []
  | .chunk _ :: rest, t => stallTrace rest t
  | .timeout :: rest, t =>
      let t1 := (t + 1) % 256
      if t1 % 60 = 0 then [t1]
      else t1 :: stallTrace rest t1

/-- Result of one `download_and_write` call: the events sent on the
accounting channel, the final filesystem, the number of GET attempts issued,
and whether the function returned `Ok(())` (`ok = false` models an `Err`
propagated by `?`). -/
structure DWResult where
  events : List Event
  fs : FS
  gets : Nat
  ok : Bool
deriving DecidableEq

/-- The per-item fetch state machine `download_and_write` of
`src/download.rs` lines 125-234, driven by a script with one `Attempt` per
recursion level.  `none` models a run the script does not cover (the
unbounded connect loop never returning, or a redirect chain longer than the
script).

* Connect phase: `k` timeouts emit `connectRetryEvents` and leave
  `pause_ms = retryDelay seed k`; each loop iteration issues one GET.
* 200: create `path ++ ".chunks"` (an `Err` from `File::create` propagates
  with no further event), run `streamLoop` with a fresh counter, flush the
  written bytes, and on `completed` rename to `path` and emit `Completed`.
* 302 with a `location` header: recurse on the same item with the new
  locator and the current `pause_ms` carried forward.
* 302 without `location`: emit `Failed path`; no retry.
* any other status: emit `FailedHttp path status` (the source's
  `res.status().to_string()` is modelled as `toString status`); no retry. -/
def download_and_write : List Attempt → String → String → Nat → FS →
    Option DWResult
  | [], _, _, _, _ => none
  | a :: rest, url, path, seed, fs =>
    let pause := retryDelay seed a.connectTimeouts
    let retryEvs := connectRetryEvents url seed a.connectTimeouts
    let gets := a.connectTimeouts + 1
    if a.response.status = 200 then
      if a.createFails then
        some ⟨retryEvs, fs, gets, false⟩
      else
        let cp := path ++ IN_PROGRESS_SUFFIX
        let fs1 := fsCreate fs cp
        let sr := streamLoop cp a.response.body 0
        let fs2 := fsAppend fs1 cp sr.bytes
        if sr.completed then
          some ⟨retryEvs ++ sr.events ++ [Event.Completed],
                fsRename fs2 cp path, gets, true⟩
        else
          some ⟨retryEvs ++ sr.events, fs2, gets, true⟩
    else if a.response.status = 302 then
      match a.response.location with
      | some loc =>
          match download_and_write rest loc path pause fs with
          | none => none
          | some r => some ⟨retryEvs ++ r.events, r.fs, gets + r.gets, r.ok⟩
      | none => some ⟨retryEvs ++ [Event.Failed path], fs, gets, true⟩
    else
      some ⟨retryEvs ++ [Event.FailedHttp path (toString a.response.status)],
            fs, gets, true⟩

/-- Result of one scheduled item: events sent (including the `New` sent
before the download in a real run), GET attempts, whether the task's closure
returned `Ok`, and the line a dry run prints (creation time and resolved
target path). -/
structure ItemResult where
  events : List Event
  gets : Nat
  ok : Bool
  dryRecord : Option (Option String × String)
deriving DecidableEq

/-- The body of one spawned task (`src/download.rs` lines 54-64 and
103-112), parameterised by the scheduler's locator resolution: push the
filename onto the download directory; in a dry run only print the creation
time and target path; otherwise send `New` and run `download_and_write`. -/
def processItemWith (resolve : MediaAttr → String) (isDryRun : Bool)
    (dir : String) (script : List Attempt) (seed : Nat) (fs : FS)
    (item : MediaAttr) : Option (ItemResult × FS) :=
  let path := dir ++ "/" ++ attrName item
  if isDryRun then
    some (⟨[], 0, true, some (attrCtime item, path)⟩, fs)
  else
    match download_and_write script (resolve item) path seed fs with
    | none => none
    | some r => some (⟨Event.New :: r.events, r.gets, r.ok, none⟩, r.fs)

/-- Drain the request queue and run every item (one canonical serialisation
of the concurrent tasks; items write disjoint paths).  Each job carries the
item, its transport script and its randomized backoff seed.  `none` models a
run in which some task never reaches a terminal state. -/
def runSchedulerWith (resolve : MediaAttr → String) (isDryRun : Bool)
    (dir : String) : List (MediaAttr × List Attempt × Nat) → FS →
    Option (List ItemResult × FS)
  | [], fs => some ([], fs)
  | (item, script, seed) :: rest, fs =>
    match processItemWith resolve isDryRun dir script seed fs item with
    | none => none
    | some (r, fs1) =>
      match runSchedulerWith resolve isDryRun dir rest fs1 with
      | none => none
      | some (rs, fs2) => some (r :: rs, fs2)

/-- `futures::future::try_join_all` over the collected join handles: the
first join-level error (a panicking task) short-circuits; otherwise all
results are collected.  Task-level `anyhow` errors live inside the `α`
values and are not errors at this layer. -/
def tryJoinAll {α : Type} : List (Except Unit α) → Except Unit (List α)
  | [] => .ok []
  | .error e :: _ => .error e
  | .ok a :: rest => (tryJoinAll rest).map (fun l => a :: l)

/-- The eager scheduler `photos_to_disk` (`src/download.rs` lines 27-72):
spawn one task per request, collect every handle, `try_join_all` them and
return `Ok(())`.  With no panics modelled every handle joins cleanly, so the
inner per-task `Result`s are discarded. -/
def photos_to_disk (isDryRun : Bool) (dir : String)
    (jobs : List (MediaAttr × List Attempt × Nat)) (fs : FS) :
    Option (Except Unit Unit × List ItemResult × FS) :=
  match runSchedulerWith resolveLocator isDryRun dir jobs fs with
  | none => none
  | some (rs, fs1) =>
    match tryJoinAll (rs.map Except.ok) with
    | .error e => some (.error e, rs, fs1)
    | .ok _ => some (.ok (), rs, fs1)

/-- The capped scheduler `photos_to_disk_unordered` (`src/download.rs` lines
75-120): drain the whole queue into memory, run the set through
`buffer_unordered(100)` (concurrency immaterial in this sequential model),
collect the `Vec` of per-item results without inspecting it, and return
`Ok(())`. -/
def photos_to_disk_unordered (isDryRun : Bool) (dir : String)
    (jobs : List (MediaAttr × List Attempt × Nat)) (fs : FS) :
    Option (Except Unit Unit × List ItemResult × FS) :=
  match runSchedulerWith resolveLocatorUnordered isDryRun dir jobs fs with
  | none => none
  | some (rs, fs1) => some (.ok (), rs, fs1)

/-- The `Tracker` accumulator of `src/acc.rs` (`i32` counters modelled as
`Int`). -/
structure Tracker where
  _total : Int
  _completed : Int
  _failed : Int
deriving DecidableEq

/-- `Tracker::default()`. -/
def Tracker.init : Tracker := ⟨0, 0, 0⟩

/-- One arm of the `match` in `track_events` (`src/acc.rs` lines 38-61):
`New` bumps `_total`, `Failed` bumps `_failed`, `Completed` bumps
`_completed`; `Retrying` and `RetryAfter` are logged only; `Summarize`
changes no counter (the loop break is in `trackRun`).  `FailedHttp` yields
`none`: the `Event` enum of `src/acc.rs` has no such variant, so the sink as
written cannot receive the event `src/download.rs` line 225 constructs. -/
def trackStep (m : Tracker) : Event → Option Tracker
  | .New => some { m with _total := m._total + 1 }
  | .Retrying _ _ => some m
  | .RetryAfter _ _ => some m
  | .Failed _ => some { m with _failed := m._failed + 1 }
  | .Completed => some { m with _completed := m._completed + 1 }
  | .Summarize => some m
  | .FailedHttp _ _ => none

/-- The receive loop of `track_events`: process events in order; on
`Summarize` log the final total/completed/failed report and break (any later
events are never received). -/
def trackRun (m : Tracker) : List Event → Option Tracker
  | [] => some m
  | Event.Summarize :: _ => some m
  | e :: rest =>
    match trackStep m e with
    | none => none
    | some m1 => trackRun m1 rest

/-- The final report the `Summarize` arm logs. -/
def summary (m : Tracker) : Int × Int × Int := (m._total, m._completed, m._failed)

/-- All events sent during a run, in per-item order. -/
def runEvents (rs : List ItemResult) : List Event :=
  (rs.map ItemResult.events).flatten

/-- Recognizer for `Event.New`. -/
def isNew : Event → Bool
  | .New => true
  | _ => false

/-- Recognizer for `Event.Completed`. -/
def isCompletedEv : Event → Bool
  | .Completed => true
  | _ => false

/-- Recognizer for `Event.Failed`. -/
def isFailedEv : Event → Bool
  | .Failed _ => true
  | _ => false

/-- Recognizer for `Event.Summarize`. -/
def isSummarizeEv : Event → Bool
  | .Summarize => true
  | _ => false

/-- Recognizer for `Event.FailedHttp`. -/
def isFailedHttpEv : Event → Bool
  | .FailedHttp _ _ => true
  | _ => false

/-- A body stream with no chunk-read timeouts. -/
def cleanBody : List BodyItem → Bool
  | [] => true
  | .chunk _ :: r => cleanBody r
  | .timeout :: _ => false

/-- A fault-free transport script for one item: the single GET is answered
promptly (no connect timeout) with status 200, the create succeeds, and the
body streams to a clean end with no stalls. -/
def faultFreeScript : List Attempt → Bool
  | [a] => a.connectTimeouts == 0 && !a.createFails &&
      a.response.status == 200 && cleanBody a.response.body
  | _ => false

/-! ### Helper lemmas -/

lemma chunks_path_ne (p : String) : ¬(p ++ IN_PROGRESS_SUFFIX = p) := by
  intro h
  have h2 := congrArg String.length h
  simp [String.length_append, IN_PROGRESS_SUFFIX] at h2
  exact absurd h2 (by decide)

lemma tryJoinAll_map_ok {α : Type} (l : List α) :
    tryJoinAll (l.map Except.ok) = Except.ok l := by
  induction l with
  | nil => rfl
  | cons a l ih => simp [tryJoinAll, ih, Except.map]

lemma runSchedulerWith_length (resolve : MediaAttr → String) (d : Bool)
    (dir : String) :
    ∀ (jobs : List (MediaAttr × List Attempt × Nat)) (fs : FS)
      (rs : List ItemResult) (fs1 : FS),
      runSchedulerWith resolve d dir jobs fs = some (rs, fs1) →
      rs.length = jobs.length := by
  intro jobs
  induction jobs with
  | nil =>
    intro fs rs fs1 h
    simp [runSchedulerWith] at h
    simp [h.1]
  | cons j rest ih =>
    intro fs rs fs1 h
    obtain ⟨item, script, seed⟩ := j
    simp only [runSchedulerWith] at h
    cases hp : processItemWith resolve d dir script seed fs item with
    | none => simp [hp] at h
    | some v =>
      obtain ⟨r, fs2⟩ := v
      simp only [hp] at h
      cases hr : runSchedulerWith resolve d dir rest fs2 with
      | none => simp [hr] at h
      | some w =>
        obtain ⟨rs2, fs3⟩ := w
        simp only [hr] at h
        simp at h
        obtain ⟨hrs, hfs⟩ := h
        subst hrs
        simp [ih fs2 rs2 fs3 hr]

lemma photos_to_disk_run (d : Bool) (dir : String)
    (jobs : List (MediaAttr × List Attempt × Nat)) (fs : FS)
    (r : Except Unit Unit) (rs : List ItemResult) (fs1 : FS)
    (h : photos_to_disk d dir jobs fs = some (r, rs, fs1)) :
    r = Except.ok () ∧
    runSchedulerWith resolveLocator d dir jobs fs = some (rs, fs1) := by
  simp only [photos_to_disk] at h
  cases hr : runSchedulerWith resolveLocator d dir jobs fs with
  | none => rw [hr] at h; exact absurd h (by simp)
  | some v =>
    obtain ⟨rs2, fs2⟩ := v
    simp only [hr, tryJoinAll_map_ok] at h
    simp at h
    obtain ⟨h1, h2, h3⟩ := h
    refine ⟨h1.symm, ?_⟩
    rw [h2, h3]

lemma trackRun_counts :
    ∀ (evs : List Event) (m : Tracker),
      (∀ e ∈ evs, isSummarizeEv e = false ∧ isFailedHttpEv e = false) →
      trackRun m (evs ++ [Event.Summarize]) =
        some ⟨m._total + evs.countP isNew,
              m._completed + evs.countP isCompletedEv,
              m._failed + evs.countP isFailedEv⟩ := by
  intro evs
  induction evs with
  | nil =>
    intro m _
    simp [trackRun]
  | cons e rest ih =>
    intro m h
    have he := h e (by simp)
    have hrest : ∀ x ∈ rest, isSummarizeEv x = false ∧ isFailedHttpEv x = false :=
      fun x hx => h x (by simp [hx])
    cases e with
    | New =>
      simp only [List.cons_append, trackRun, trackStep, List.append_eq]
      rw [ih _ hrest]
      simp [List.countP_cons, isNew, isCompletedEv, isFailedEv]
      omega
    | Retrying s c =>
      simp only [List.cons_append, trackRun, trackStep, List.append_eq]
      rw [ih _ hrest]
      simp [List.countP_cons, isNew, isCompletedEv, isFailedEv]
    | RetryAfter s d =>
      simp only [List.cons_append, trackRun, trackStep, List.append_eq]
      rw [ih _ hrest]
      simp [List.countP_cons, isNew, isCompletedEv, isFailedEv]
    | Failed s =>
      simp only [List.cons_append, trackRun, trackStep, List.append_eq]
      rw [ih _ hrest]
      simp [List.countP_cons, isNew, isCompletedEv, isFailedEv]
      omega
    | Completed =>
      simp only [List.cons_append, trackRun, trackStep, List.append_eq]
      rw [ih _ hrest]
      simp [List.countP_cons, isNew, isCompletedEv, isFailedEv]
      omega
    | Summarize => simp [isSummarizeEv] at he
    | FailedHttp p st => simp [isFailedHttpEv] at he

lemma streamLoop_clean (cp : String) :
    ∀ (body : List BodyItem) (t : Nat), cleanBody body = true →
      (streamLoop cp body t).events = [] ∧
      (streamLoop cp body t).completed = true ∧
      (streamLoop cp body t).timeouts = t := by
  intro body
  induction body with
  | nil => intro t _; exact ⟨rfl, rfl, rfl⟩
  | cons b rest ih =>
    intro t h
    cases b with
    | chunk d =>
      have h2 : cleanBody rest = true := h
      obtain ⟨h3, h4, h5⟩ := ih t h2
      exact ⟨h3, h4, h5⟩
    | timeout => simp [cleanBody] at h

lemma dw_faultFree (s : List Attempt) (url path : String) (seed : Nat) (fs : FS)
    (h : faultFreeScript s = true) :
    ∃ fs1, download_and_write s url path seed fs =
      some ⟨[Event.Completed], fs1, 1, true⟩ := by
  match s with
  | [] => simp [faultFreeScript] at h
  | a :: b :: r => simp [faultFreeScript] at h
  | [a] =>
    simp [faultFreeScript] at h
    obtain ⟨⟨⟨h1, h2⟩, h3⟩, h4⟩ := h
    obtain ⟨he, hc, ht⟩ := streamLoop_clean (path ++ IN_PROGRESS_SUFFIX)
      a.response.body 0 h4
    refine ⟨fsRename (fsAppend (fsCreate fs (path ++ IN_PROGRESS_SUFFIX))
      (path ++ IN_PROGRESS_SUFFIX)
      (streamLoop (path ++ IN_PROGRESS_SUFFIX) a.response.body 0).bytes)
      (path ++ IN_PROGRESS_SUFFIX) path, ?_⟩
    simp [download_and_write, h1, h2, h3, hc, he, connectRetryEvents]

lemma processItem_faultFree (resolve : MediaAttr → String) (dir : String)
    (s : List Attempt) (seed : Nat) (fs : FS) (item : MediaAttr)
    (h : faultFreeScript s = true) :
    ∃ fs1, processItemWith resolve false dir s seed fs item =
      some (⟨[Event.New, Event.Completed], 1, true, none⟩, fs1) := by
  obtain ⟨fs1, hdw⟩ :=
    dw_faultFree s (resolve item) (dir ++ "/" ++ attrName item) seed fs h
  exact ⟨fs1, by simp [processItemWith, hdw]⟩

lemma runSched_faultFree (dir : String) :
    ∀ (jobs : List (MediaAttr × List Attempt × Nat)) (fs : FS),
      (∀ j ∈ jobs, faultFreeScript j.2.1 = true) →
      ∃ rs fs1, runSchedulerWith resolveLocator false dir jobs fs = some (rs, fs1) ∧
        rs.length = jobs.length ∧
        ∀ r ∈ rs, r.events = [Event.New, Event.Completed] := by
  intro jobs
  induction jobs with
  | nil => intro fs _; exact ⟨[], fs, rfl, rfl, by simp⟩
  | cons j rest ih =>
    intro fs h
    obtain ⟨item, script, seed⟩ := j
    obtain ⟨fs1, hp⟩ := processItem_faultFree resolveLocator dir script seed fs
      item (h (item, script, seed) (by simp))
    obtain ⟨rs, fs2, hr, hlen, hsh⟩ := ih fs1 (fun x hx => h x (by simp [hx]))
    refine ⟨⟨[Event.New, Event.Completed], 1, true, none⟩ :: rs, fs2, ?_, ?_, ?_⟩
    · simp [runSchedulerWith, hp, hr]
    · simp [hlen]
    · intro r hr2
      rcases List.mem_cons.mp hr2 with h5 | h5
      · simp [h5]
      · exact hsh r h5

lemma runEvents_counts :
    ∀ rs : List ItemResult,
      (∀ r ∈ rs, r.events = [Event.New, Event.Completed]) →
      (runEvents rs).countP isNew = rs.length ∧
      (runEvents rs).countP isCompletedEv = rs.length ∧
      (runEvents rs).countP isFailedEv = 0 ∧
      ∀ e ∈ runEvents rs, isSummarizeEv e = false ∧ isFailedHttpEv e = false := by
  intro rs
  induction rs with
  | nil => intro _; simp [runEvents]
  | cons r rest ih =>
    intro h
    have hr := h r (by simp)
    obtain ⟨i1, i2, i3, i4⟩ := ih (fun x hx => h x (by simp [hx]))
    have hru : runEvents (r :: rest) = r.events ++ runEvents rest := by
      simp [runEvents]
    rw [hru, hr]
    refine ⟨?_, ?_, ?_, ?_⟩
    · simp [List.countP_append, List.countP_cons, isNew, i1]
    · simp [List.countP_append, List.countP_cons, isCompletedEv, i2]
    · simp [List.countP_append, List.countP_cons, isFailedEv, i3]
    · intro e he
      rcases List.mem_append.mp he with h5 | h5
      · rcases List.mem_cons.mp h5 with h6 | h6
        · simp [h6, isSummarizeEv, isFailedHttpEv]
        · simp at h6
          simp [h6, isSummarizeEv, isFailedHttpEv]
      · exact i4 e h5

lemma runSchedulerWith_dry (resolve : MediaAttr → String) (dir : String) :
    ∀ (jobs : List (MediaAttr × List Attempt × Nat)) (fs : FS),
      runSchedulerWith resolve true dir jobs fs =
        some (jobs.map (fun j =>
          ⟨[], 0, true, some (attrCtime j.1, dir ++ "/" ++ attrName j.1)⟩), fs) := by
  intro jobs
  induction jobs with
  | nil => intro fs; rfl
  | cons j rest ih =>
    intro fs
    obtain ⟨item, script, seed⟩ := j
    simp [runSchedulerWith, processItemWith, ih]

lemma stallTrace_bound :
    ∀ (body : List BodyItem) (t : Nat), t < 60 →
      ∀ v ∈ stallTrace body t, v ≤ 60 := by
  intro body
  induction body with
  | nil => intro t _ v hv; simp [stallTrace] at hv
  | cons b rest ih =>
    intro t ht v hv
    cases b with
    | chunk d => exact ih t ht v hv
    | timeout =>
      have h256 : (t + 1) % 256 = t + 1 := Nat.mod_eq_of_lt (by omega)
      by_cases h60 : (t + 1) % 256 % 60 = 0
      · simp [stallTrace, h60] at hv
        omega
      · simp [stallTrace, h60] at hv
        rcases hv with h5 | h5
        · omega
        · exact ih ((t + 1) % 256) (by omega) v h5

lemma streamLoop_timeouts_le (cp : String) :
    ∀ (body : List BodyItem) (t : Nat), t < 60 →
      (streamLoop cp body t).timeouts ≤ 60 := by
  intro body
  induction body with
  | nil => intro t ht; simp [streamLoop]; omega
  | cons b rest ih =>
    intro t ht
    cases b with
    | chunk d => exact ih t ht
    | timeout =>
      have h256 : (t + 1) % 256 = t + 1 := Nat.mod_eq_of_lt (by omega)
      by_cases h60 : (t + 1) % 256 % 60 = 0
      · simp [streamLoop, h60]
        omega
      · by_cases h20 : (t + 1) % 256 % 20 = 0
        · simp only [streamLoop, h60, h20, if_neg, if_pos, if_false, if_true]
          simp [h60, h20]
          exact ih ((t + 1) % 256) (by omega)
        · simp only [streamLoop]
          simp [h60, h20]
          exact ih ((t + 1) % 256) (by omega)

lemma streamLoop_timeouts_trace (cp : String) :
    ∀ (body : List BodyItem) (t : Nat),
      (streamLoop cp body t).timeouts = (stallTrace body t).getLastD t := by
  intro body
  induction body with
  | nil => intro t; rfl
  | cons b rest ih =>
    intro t
    cases b with
    | chunk d =>
      have : (streamLoop cp (BodyItem.chunk d :: rest) t).timeouts =
          (streamLoop cp rest t).timeouts := rfl
      rw [this, ih t]
      rfl
    | timeout =>
      by_cases h60 : (t + 1) % 256 % 60 = 0
      · simp [streamLoop, stallTrace, h60]
      · have hs : (streamLoop cp (BodyItem.timeout :: rest) t).timeouts =
            (streamLoop cp rest ((t + 1) % 256)).timeouts := by
          by_cases h20 : (t + 1) % 256 % 20 = 0
          · simp [streamLoop, h60, h20]
          · simp [streamLoop, h60, h20]
        have ht : stallTrace (BodyItem.timeout :: rest) t =
            ((t + 1) % 256) :: stallTrace rest ((t + 1) % 256) := by
          simp [stallTrace, h60]
        rw [hs, ht, List.getLastD_cons]
        exact ih ((t + 1) % 256)

/-! ### Claim theorems -/

/-- Claim C1: for every request set of size N processed in a real
(non-dry-run) run with a fault-free transport (every GET answered promptly
with status 200 and a clean end of body), after all fetch tasks finish and
the sink has processed all emitted events — in any interleaving — followed
by the closing `Summarize`, the sink's counters satisfy `total = N`,
`completed = N` and `failed = 0`. -/
theorem C1_fault_free_accounting (dir : String)
    (jobs : List (MediaAttr × List Attempt × Nat)) (fs : FS)
    (rs : List ItemResult) (fs1 : FS) (evs : List Event)
    (hff : ∀ j ∈ jobs, faultFreeScript j.2.1 = true)
    (hrun : runSchedulerWith resolveLocator false dir jobs fs = some (rs, fs1))
    (hperm : evs.Perm (runEvents rs)) :
    trackRun Tracker.init (evs ++ [Event.Summarize]) =
      some ⟨(jobs.length : Int), (jobs.length : Int), 0⟩ := by
  obtain ⟨rs2, fs2, hr2, hlen, hsh⟩ := runSched_faultFree dir jobs fs hff
  rw [hrun] at hr2
  simp only [Option.some.injEq, Prod.mk.injEq] at hr2
  obtain ⟨hrs, hfs⟩ := hr2
  subst hrs
  obtain ⟨c1, c2, c3, c4⟩ := runEvents_counts rs hsh
  have hcn : evs.countP isNew = jobs.length := by
    rw [hperm.countP_eq, c1, hlen]
  have hcc : evs.countP isCompletedEv = jobs.length := by
    rw [hperm.countP_eq, c2, hlen]
  have hcf : evs.countP isFailedEv = 0 := by
    rw [hperm.countP_eq, c3]
  have hmem : ∀ e ∈ evs, isSummarizeEv e = false ∧ isFailedHttpEv e = false :=
    fun e he => c4 e (hperm.subset he)
  rw [trackRun_counts evs Tracker.init hmem, hcn, hcc, hcf]
  simp [Tracker.init]

/-- Witness for C1: a concrete fault-free two-item run yields the report
total = 2, completed = 2, failed = 0. -/
theorem C1_fault_free_accounting_witness :
    trackRun Tracker.init
      (runEvents [⟨[Event.New, Event.Completed], 1, true, none⟩,
                  ⟨[Event.New, Event.Completed], 1, true, none⟩] ++
        [Event.Summarize]) =
      some ⟨2, 2, 0⟩ :=
  C1_fault_free_accounting "d"
    [(MediaAttr.VideoBaseUrl "u" "a" none,
        [⟨0, false, ⟨200, none, [BodyItem.chunk [1]]⟩⟩], 3000),
     (MediaAttr.VideoBaseUrl "v" "b" none,
        [⟨0, false, ⟨200, none, [BodyItem.chunk [1]]⟩⟩], 3000)]
    []
    [⟨[Event.New, Event.Completed], 1, true, none⟩,
     ⟨[Event.New, Event.Completed], 1, true, none⟩]
    [("d/b", [1]), ("d/a", [1])]
    (runEvents [⟨[Event.New, Event.Completed], 1, true, none⟩,
                ⟨[Event.New, Event.Completed], 1, true, none⟩])
    (by decide) (by decide) (List.Perm.refl _)

/-- Claim C2: while streaming one fetch, each chunk-read timeout bumps the
per-fetch stall counter; with 60 straight stalls the 20th and 40th ticks
emit `Retrying` warnings (streaming continues), the 60th tick emits `Failed`
and abandons the transfer — the remaining stream data is never consumed, the
function still returns `Ok`, the `.chunks` in-progress file exists on disk
and no file exists at the final destination path. -/
theorem C2_stall_abandon (url path : String) (seed : Nat) :
    download_and_write
        [⟨0, false, ⟨200, none,
            List.replicate 60 BodyItem.timeout ++ [BodyItem.chunk [7]]⟩⟩]
        url path seed [] =
      some ⟨[Event.Retrying (path ++ IN_PROGRESS_SUFFIX) 20,
             Event.Retrying (path ++ IN_PROGRESS_SUFFIX) 40,
             Event.Failed (path ++ IN_PROGRESS_SUFFIX)],
            [(path ++ IN_PROGRESS_SUFFIX, [])], 1, true⟩ ∧
    fsHas [(path ++ IN_PROGRESS_SUFFIX, [])] (path ++ IN_PROGRESS_SUFFIX) = true ∧
    fsHas [(path ++ IN_PROGRESS_SUFFIX, [])] path = false := by
  have hs : streamLoop (path ++ IN_PROGRESS_SUFFIX)
      (List.replicate 60 BodyItem.timeout ++ [BodyItem.chunk [7]]) 0 =
      ⟨[Event.Retrying (path ++ IN_PROGRESS_SUFFIX) 20,
        Event.Retrying (path ++ IN_PROGRESS_SUFFIX) 40,
        Event.Failed (path ++ IN_PROGRESS_SUFFIX)], [], false, 60⟩ := rfl
  refine ⟨?_, ?_, ?_⟩
  · generalize hbody :
      List.replicate 60 BodyItem.timeout ++ [BodyItem.chunk [7]] = body
    rw [hbody] at hs
    simp [download_and_write, connectRetryEvents, fsCreate, hs, fsAppend]
  · simp [fsHas]
  · simp [fsHas]
    exact chunks_path_ne path

/-- Claim C3, counterexample: the backoff delay is a `u64` that is doubled
in place, so its value wraps modulo `2 ^ 64`; with the legal seed 3000 the
53rd doubling wraps and the delay sequence is neither strictly increasing
nor exactly doubling there. -/
theorem C3_backoff_counterexample :
    TIMEOUT_MS ≤ 3000 ∧ 3000 < TIMEOUT_MS + TIMEOUT_MS / 2 ∧
    retryDelay 3000 53 < retryDelay 3000 52 ∧
    retryDelay 3000 53 ≠ 2 * retryDelay 3000 52 := by decide

/-- Claim C3, amended: for a connect phase whose GET times out on every
attempt, the successive `RetryAfter` delays are exactly doubling and
strictly increasing as long as the doubled value has not overflowed `u64`
(which a real run cannot reach: it would require sleeping for more than
`2 ^ 52` milliseconds first), and the first delay is the seed itself, which
lies in the configured range `[3000, 4500)`. -/
theorem C3_backoff_doubling (url : String) (seed n k : Nat)
    (h1 : TIMEOUT_MS ≤ seed) (h2 : seed < TIMEOUT_MS + TIMEOUT_MS / 2)
    (hov : seed * 2 ^ (n + 1) < 2 ^ 64) :
    retryDelay seed (n + 1) = 2 * retryDelay seed n ∧
    retryDelay seed n < retryDelay seed (n + 1) ∧
    retryDelay seed 0 = seed ∧
    TIMEOUT_MS ≤ retryDelay seed 0 ∧
    retryDelay seed 0 < TIMEOUT_MS + TIMEOUT_MS / 2 ∧
    connectRetryEvents url seed k =
      (List.range k).map (fun i => Event.RetryAfter url (retryDelay seed i)) := by
  have h1' : 3000 ≤ seed := h1
  have h2' : seed < 4500 := h2
  have e1 : seed * 2 ^ (n + 1) = 2 * (seed * 2 ^ n) := by ring
  have hp : seed * 2 ^ n < 2 ^ 64 := by
    refine lt_of_le_of_lt ?_ hov
    exact Nat.mul_le_mul (Nat.le_refl seed)
      (Nat.pow_le_pow_right (by norm_num) (Nat.le_succ n))
  have hpos : 0 < seed * 2 ^ n := by positivity
  have hr0 : retryDelay seed 0 = seed := by
    unfold retryDelay
    rw [pow_zero, mul_one]
    exact Nat.mod_eq_of_lt (lt_of_lt_of_le h2' (by norm_num))
  refine ⟨?_, ?_, hr0, ?_, ?_, rfl⟩
  · unfold retryDelay
    rw [Nat.mod_eq_of_lt hov, Nat.mod_eq_of_lt hp, e1]
  · unfold retryDelay
    rw [Nat.mod_eq_of_lt hov, Nat.mod_eq_of_lt hp, e1]
    omega
  · rw [hr0]; exact h1
  · rw [hr0]; exact h2

/-- Witness for C3 (amended): at seed 3000 the first doubling behaves as
stated and the two `RetryAfter` events of a two-timeout connect phase carry
the first two delays. -/
theorem C3_backoff_doubling_witness :
    retryDelay 3000 1 = 2 * retryDelay 3000 0 ∧
    retryDelay 3000 0 < retryDelay 3000 1 ∧
    retryDelay 3000 0 = 3000 ∧
    TIMEOUT_MS ≤ retryDelay 3000 0 ∧
    retryDelay 3000 0 < TIMEOUT_MS + TIMEOUT_MS / 2 ∧
    connectRetryEvents "u" 3000 2 =
      (List.range 2).map (fun i => Event.RetryAfter "u" (retryDelay 3000 i)) :=
  C3_backoff_doubling "u" 3000 0 2 (by decide) (by decide) (by decide)

/-- Claim C4, counterexample: in the eager scheduler (`photos_to_disk`) the
image locator is the fixed suffix `=d` — two requests that differ only in
their size hints resolve to the same locator, which is not the size-derived
suffix the unordered scheduler would build. -/
theorem C4_locator_counterexample :
    resolveLocator
      (MediaAttr.ImageOrMotionPhotoBaseUrl "u" "n" (some 2) (some 3) none) = "u=d" ∧
    resolveLocator
      (MediaAttr.ImageOrMotionPhotoBaseUrl "u" "n" (some 4) (some 5) none) = "u=d" ∧
    resolveLocator
      (MediaAttr.ImageOrMotionPhotoBaseUrl "u" "n" (some 2) (some 3) none) ≠
      "u" ++ "=w" ++ optDisplay (some 2) ++ "-h" ++ optDisplay (some 3) := by
  refine ⟨rfl, rfl, ?_⟩
  decide

/-- Claim C4, amended: each dequeued request resolves to exactly one final
locator, but the two scheduling disciplines differ for images: the eager
scheduler appends the fixed suffix `=d` (its size-suffix line is commented
out), the unordered scheduler appends the size suffix built from the
width/height hints; both append the fixed `=dv` for videos. -/
theorem C4_locator_resolution (url name : String) (w h : Option Int)
    (t : Option String) :
    resolveLocator (MediaAttr.ImageOrMotionPhotoBaseUrl url name w h t) =
      url ++ "=d" ∧
    resolveLocator (MediaAttr.VideoBaseUrl url name t) = url ++ "=dv" ∧
    resolveLocatorUnordered (MediaAttr.ImageOrMotionPhotoBaseUrl url name w h t) =
      url ++ "=w" ++ optDisplay w ++ "-h" ++ optDisplay h ∧
    resolveLocatorUnordered (MediaAttr.VideoBaseUrl url name t) = url ++ "=dv" :=
  ⟨rfl, rfl, rfl, rfl⟩

/-- Claim C5: the sink bumps `total` once per `New`, `failed` once per
`Failed`, `completed` once per `Completed`; `Retrying` and `RetryAfter`
change no counter; on `Summarize` the receive loop reports the final
total/completed/failed triple and stops (any later events are ignored).
The `FailedHttp` event that `download_and_write` sends for a non-200/302
status has no arm — indeed no variant — in the sink's own `Event` enum, so
the sink cannot count it (`trackStep` is undefined there, modelled as
`none`): the claim's `FailedHttp` clause does not hold on this code. -/
theorem C5_sink_contract :
    (∀ m : Tracker, trackStep m Event.New =
      some { m with _total := m._total + 1 }) ∧
    (∀ (m : Tracker) (s : String) (c : Nat),
      trackStep m (Event.Retrying s c) = some m) ∧
    (∀ (m : Tracker) (s : String) (d : Nat),
      trackStep m (Event.RetryAfter s d) = some m) ∧
    (∀ (m : Tracker) (s : String), trackStep m (Event.Failed s) =
      some { m with _failed := m._failed + 1 }) ∧
    (∀ m : Tracker, trackStep m Event.Completed =
      some { m with _completed := m._completed + 1 }) ∧
    (∀ (m : Tracker) (rest : List Event),
      trackRun m (Event.Summarize :: rest) = some m) ∧
    (∀ m : Tracker, summary m = (m._total, m._completed, m._failed)) ∧
    (∀ (m : Tracker) (p st : String),
      trackStep m (Event.FailedHttp p st) = none) :=
  ⟨fun _ => rfl, fun _ _ _ => rfl, fun _ _ _ => rfl, fun _ _ => rfl,
   fun _ => rfl, fun _ _ => rfl, fun _ => rfl, fun _ _ _ => rfl⟩

/-- Claim C6: on a 302 response carrying a `location` header the state
machine recurses on the same item with the header value as the new locator
and the current backoff value — `retryDelay seed k` after the `k` doublings
of this connect phase — carried forward as the starting delay, not a fresh
seed; when the header is absent it emits a single `Failed` event carrying
the final path and performs no retry. -/
theorem C6_redirect_follow (url path loc : String) (seed k : Nat) (cf : Bool)
    (body : List BodyItem) (rest : List Attempt) (fs : FS) :
    download_and_write (⟨k, cf, ⟨302, some loc, body⟩⟩ :: rest) url path seed fs =
      (match download_and_write rest loc path (retryDelay seed k) fs with
       | none => none
       | some r =>
           some ⟨connectRetryEvents url seed k ++ r.events, r.fs,
                 (k + 1) + r.gets, r.ok⟩) ∧
    download_and_write [⟨k, cf, ⟨302, none, body⟩⟩] url path seed fs =
      some ⟨connectRetryEvents url seed k ++ [Event.Failed path],
            fs, k + 1, true⟩ := by
  constructor
  · cases h : download_and_write rest loc path (retryDelay seed k) fs <;>
      simp [download_and_write, h]
  · simp [download_and_write]

/-- Claim C7, counterexample: a filesystem error on one item (the
`File::create` of the in-progress file fails) makes `download_and_write`
return an error (`ok = false`) and emit no event at all — it is neither
surfaced as an `Event` nor a success return, contrary to the claim. -/
theorem C7_isolation_counterexample :
    download_and_write [⟨0, true, ⟨200, none, [BodyItem.chunk [9]]⟩⟩]
      "u" "p" 3000 [] = some ⟨[], [], 1, false⟩ := by decide

/-- Claim C7, amended: an unexpected non-200/302 status, stall abandonment
and a redirect without a `location` header each stay isolated to the item:
`download_and_write` returns `Ok` and surfaces exactly the corresponding
event.  A filesystem error instead returns `Err` with no event; even then
the scheduler is not aborted: every job is processed and `photos_to_disk`
returns `Ok(())`, the per-task errors being discarded by the join. -/
theorem C7_failure_isolation (url path dir : String) (seed st : Nat)
    (jobs : List (MediaAttr × List Attempt × Nat)) (fs : FS)
    (r : Except Unit Unit) (rs : List ItemResult) (fs1 : FS)
    (hst1 : st ≠ 200) (hst2 : st ≠ 302)
    (hrun : photos_to_disk false dir jobs fs = some (r, rs, fs1)) :
    download_and_write [⟨0, false, ⟨st, none, []⟩⟩] url path seed [] =
      some ⟨[Event.FailedHttp path (toString st)], [], 1, true⟩ ∧
    (download_and_write
        [⟨0, false, ⟨200, none, List.replicate 60 BodyItem.timeout⟩⟩]
        url path seed []).map DWResult.ok = some true ∧
    download_and_write [⟨0, false, ⟨302, none, []⟩⟩] url path seed [] =
      some ⟨[Event.Failed path], [], 1, true⟩ ∧
    download_and_write [⟨0, true, ⟨200, none, []⟩⟩] url path seed [] =
      some ⟨[], [], 1, false⟩ ∧
    r = Except.ok () ∧ rs.length = jobs.length := by
  obtain ⟨hok, hsched⟩ := photos_to_disk_run false dir jobs fs r rs fs1 hrun
  refine ⟨?_, ?_, ?_, ?_, hok,
    runSchedulerWith_length resolveLocator false dir jobs fs rs fs1 hsched⟩
  · simp [download_and_write, hst1, hst2, connectRetryEvents]
  · have hs2 : streamLoop (path ++ IN_PROGRESS_SUFFIX)
        (List.replicate 60 BodyItem.timeout) 0 =
        ⟨[Event.Retrying (path ++ IN_PROGRESS_SUFFIX) 20,
          Event.Retrying (path ++ IN_PROGRESS_SUFFIX) 40,
          Event.Failed (path ++ IN_PROGRESS_SUFFIX)], [], false, 60⟩ := rfl
    generalize hbody : List.replicate 60 BodyItem.timeout = body
    rw [hbody] at hs2
    simp [download_and_write, connectRetryEvents, fsCreate, fsAppend, hs2]
  · simp [download_and_write, connectRetryEvents]
  · simp [download_and_write, connectRetryEvents]

/-- Witness for C7 (amended) at status 404 and a one-item run whose
filesystem create fails. -/
theorem C7_failure_isolation_witness :
    download_and_write [⟨0, false, ⟨404, none, []⟩⟩] "u" "p" 3000 [] =
      some ⟨[Event.FailedHttp "p" (toString 404)], [], 1, true⟩ ∧
    (download_and_write
        [⟨0, false, ⟨200, none, List.replicate 60 BodyItem.timeout⟩⟩]
        "u" "p" 3000 []).map DWResult.ok = some true ∧
    download_and_write [⟨0, false, ⟨302, none, []⟩⟩] "u" "p" 3000 [] =
      some ⟨[Event.Failed "p"], [], 1, true⟩ ∧
    download_and_write [⟨0, true, ⟨200, none, []⟩⟩] "u" "p" 3000 [] =
      some ⟨[], [], 1, false⟩ ∧
    (Except.ok () : Except Unit Unit) = Except.ok () ∧
    ([⟨[Event.New], 1, false, none⟩] : List ItemResult).length =
      [(MediaAttr.VideoBaseUrl "w" "c" none,
        [(⟨0, true, ⟨200, none, []⟩⟩ : Attempt)], 3000)].length :=
  C7_failure_isolation "u" "p" "d" 3000 404
    [(MediaAttr.VideoBaseUrl "w" "c" none, [⟨0, true, ⟨200, none, []⟩⟩], 3000)]
    [] (Except.ok ()) [⟨[Event.New], 1, false, none⟩] []
    (by decide) (by decide) (by rfl)

/-- Claim C8, counterexample: a one-item run whose task fails with an
unrecoverable filesystem error that is absorbed into no event still makes
the scheduler return `Ok(())` — the task-level error is not propagated. -/
theorem C8_join_counterexample :
    photos_to_disk false "d"
      [(MediaAttr.VideoBaseUrl "u" "a" none,
        [⟨0, true, ⟨200, none, []⟩⟩], 3000)] [] =
      some (Except.ok (), [⟨[Event.New], 1, false, none⟩], []) := by rfl

/-- Claim C8, amended: the eager scheduler collects one join handle per
spawned task and waits for all of them (one result per job); with every
handle joining cleanly `try_join_all` returns all the task results and the
scheduler returns `Ok(())` — task-level `anyhow` errors are discarded, not
propagated; only a join-level error (a panicking task) could propagate. -/
theorem C8_join_all (dir : String)
    (jobs : List (MediaAttr × List Attempt × Nat)) (fs : FS)
    (r : Except Unit Unit) (rs : List ItemResult) (fs1 : FS)
    (hrun : photos_to_disk false dir jobs fs = some (r, rs, fs1)) :
    rs.length = jobs.length ∧ r = Except.ok () ∧
    tryJoinAll (rs.map Except.ok) = Except.ok rs := by
  obtain ⟨hok, hsched⟩ := photos_to_disk_run false dir jobs fs r rs fs1 hrun
  exact ⟨runSchedulerWith_length resolveLocator false dir jobs fs rs fs1 hsched,
    hok, tryJoinAll_map_ok rs⟩

/-- Witness for C8 (amended) on a one-item run that fails with HTTP 404. -/
theorem C8_join_all_witness :
    ([⟨[Event.New, Event.FailedHttp "e/f" (toString 404)], 1, true, none⟩] :
        List ItemResult).length =
      [(MediaAttr.VideoBaseUrl "x" "f" none,
        [(⟨0, false, ⟨404, none, []⟩⟩ : Attempt)], 3000)].length ∧
    (Except.ok () : Except Unit Unit) = Except.ok () ∧
    tryJoinAll
        (([⟨[Event.New, Event.FailedHttp "e/f" (toString 404)], 1, true, none⟩] :
          List ItemResult).map Except.ok) =
      Except.ok
        [⟨[Event.New, Event.FailedHttp "e/f" (toString 404)], 1, true, none⟩] :=
  C8_join_all "e"
    [(MediaAttr.VideoBaseUrl "x" "f" none, [⟨0, false, ⟨404, none, []⟩⟩], 3000)]
    [] (Except.ok ())
    [⟨[Event.New, Event.FailedHttp "e/f" (toString 404)], 1, true, none⟩] []
    (by rfl)

/-- Claim C9: in dry-run mode every request flows through the same
scheduling plumbing in both disciplines, yet no GET is issued (0 network
calls per item), no event is sent, the filesystem is returned unchanged,
each item's task succeeds recording only the creation time and the resolved
target path, the scheduler terminates and completion is reported through the
same `Ok(())` code path as a real run. -/
theorem C9_dry_run (dir : String)
    (jobs : List (MediaAttr × List Attempt × Nat)) (fs : FS) :
    photos_to_disk true dir jobs fs =
      some (Except.ok (),
        jobs.map (fun j =>
          ⟨[], 0, true, some (attrCtime j.1, dir ++ "/" ++ attrName j.1)⟩), fs) ∧
    photos_to_disk_unordered true dir jobs fs =
      some (Except.ok (),
        jobs.map (fun j =>
          ⟨[], 0, true, some (attrCtime j.1, dir ++ "/" ++ attrName j.1)⟩), fs) := by
  constructor
  · simp only [photos_to_disk, runSchedulerWith_dry resolveLocator dir jobs fs,
      tryJoinAll_map_ok]
  · simp only [photos_to_disk_unordered,
      runSchedulerWith_dry resolveLocatorUnordered dir jobs fs]

/-- Claim C10: within one invocation of the streaming loop the stall counter
starts at zero, is bumped only on chunk timeouts, and the loop exits as soon
as it reaches 60: every value it takes is at most 60, the final value is at
most 60 and is the last recorded tick, and the `u8` increment can never wrap
(each increment of a reachable value stays below 256). -/
theorem C10_stall_counter_bound (cp : String) (body : List BodyItem) :
    (∀ v ∈ stallTrace body 0, v ≤ 60) ∧
    (streamLoop cp body 0).timeouts ≤ 60 ∧
    (streamLoop cp body 0).timeouts = (stallTrace body 0).getLastD 0 ∧
    (∀ v ∈ stallTrace body 0, (v + 1) % 256 = v + 1) := by
  refine ⟨stallTrace_bound body 0 (by omega),
    streamLoop_timeouts_le cp body 0 (by omega),
    streamLoop_timeouts_trace cp body 0, ?_⟩
  intro v hv
  have hb := stallTrace_bound body 0 (by omega) v hv
  exact Nat.mod_eq_of_lt (by omega)

end Goopho

